import Mathlib

/-!
Verification of the LuckyOnes E2EE chat core (crypto_utils.py, chat_manager.py,
network_utils.py) against its natural-language specification.

The Python code is shallowly embedded: dictionaries become association lists,
`datetime.now()` / `time.time()` become explicit `Nat` instants (seconds),
`os.urandom` outputs become explicit symbolic randomness arguments, and the
cryptographic primitives (X25519, HKDF, AES-256-GCM) are modelled symbolically:
key byte-strings are terms of an inductive type `KBytes`, distinct derivations
yield distinct terms, the X25519 exchange is symmetric in its two parties, and
authenticated AES-GCM decryption succeeds exactly when key and nonce match the
ones used at encryption time.
-/

namespace LuckyOnes

/-! ## Association lists (Python `dict` semantics: lookup / set / delete) -/

section AList

variable {κ : Type} [DecidableEq κ] {α : Type}

/-- Dictionary lookup: the value bound to the first occurrence of a key. -/
def alGet : List (κ × α) → κ → Option α
  | [], _ => none
  | (k, v) :: t, q => if k = q then some v else alGet t q

/-- Dictionary assignment `d[k] = v`: replace the first binding of `k`,
or append a new binding when `k` is absent. -/
def alSet : List (κ × α) → κ → α → List (κ × α)
  | [], k, v => [(k, v)]
  | (k, v) :: t, q, w => if k = q then (q, w) :: t else (k, v) :: alSet t q w

/-- Dictionary deletion `del d[k]`: drop every binding of `k`. -/
def alErase (l : List (κ × α)) (k : κ) : List (κ × α) :=
  l.filter (fun p => p.1 ≠ k)

end AList

/-! ## Symbolic byte strings and cryptographic primitives (crypto_utils.py) -/

/-- Symbolic model of the byte strings handled by `DoubleRatchet`.
Engines are numbered; `priv i` is engine `i`'s X25519 `dh_ratchet` private key
and its raw serialized public key is identified with the index `i` itself.
`rand n` is the `n`-th `os.urandom` output. `dhShared i j` (kept with `i ≤ j`)
is the X25519 shared secret between engines `i` and `j`. `hkdfRoot` models
HKDF-SHA256 with info `luckyones_root`; `chainPart`/`msgPart` are the first and
second 32-byte halves of HKDF-SHA256 with info `luckyones_ratchet`. -/
inductive KBytes where
  | rand (n : Nat)
  | priv (i : Nat)
  | dhShared (i j : Nat)
  | hkdfRoot (rk ss : KBytes)
  | chainPart (ck ss : KBytes)
  | msgPart (ck ss : KBytes)
  deriving DecidableEq, Repr

/-- `DoubleRatchet.perform_dh`: X25519 exchange between our private key (engine
index `me`) and the peer public key (engine index `otherPub`). X25519 agreement
is symmetric, so the shared secret is stored with sorted indices. -/
def performDh (me otherPub : Nat) : KBytes :=
  KBytes.dhShared (min me otherPub) (max me otherPub)

/-- `DoubleRatchet.kdf_chain_key`: 64 bytes of HKDF(`chain_key + shared_secret`,
info = `luckyones_ratchet`), split into (new chain key, message key). -/
def kdf_chain_key (chainKey sharedSecret : KBytes) : KBytes × KBytes :=
  (KBytes.chainPart chainKey sharedSecret, KBytes.msgPart chainKey sharedSecret)

/-- `DoubleRatchet.kdf_root_key`: HKDF(`root_key + shared_secret`,
info = `luckyones_root`). -/
def kdf_root_key (rootKey sharedSecret : KBytes) : KBytes :=
  KBytes.hkdfRoot rootKey sharedSecret

/-- An AES-256-GCM ciphertext, modelled symbolically: it records the key, the
nonce and the plaintext that produced it. -/
structure AEADCipher where
  key : KBytes
  nonce : KBytes
  plaintext : List Nat
  deriving DecidableEq, Repr

/-- `AESGCM(key).encrypt(nonce, message, None)`. -/
def aesgcmEncrypt (key nonce : KBytes) (message : List Nat) : AEADCipher :=
  ⟨key, nonce, message⟩

/-- `AESGCM(key).decrypt(nonce, ciphertext, None)`: authenticated decryption
succeeds exactly when key and nonce match the ones used at encryption;
otherwise `InvalidTag` is raised, modelled as `none`. -/
def aesgcmDecrypt (key nonce : KBytes) (c : AEADCipher) : Option (List Nat) :=
  if c.key = key ∧ c.nonce = nonce then some c.plaintext else none

/-- The JSON structure produced by `DoubleRatchet.encrypt_message`:
`{public_key, message_number, nonce, ciphertext}`. -/
structure EncryptedMessage where
  public_key : Nat
  message_number : Nat
  nonce : KBytes
  ciphertext : AEADCipher
  deriving DecidableEq, Repr

/-- State of a `DoubleRatchet` engine: our private key index `me`, the
`root_key`, and the three per-peer dictionaries keyed by the peer's raw
public key. -/
structure DoubleRatchet where
  me : Nat
  root_key : KBytes
  chain_keys : List (Nat × KBytes)
  message_numbers : List (Nat × Nat)
  skip_message_keys : List (Nat × List (Nat × KBytes))
  deriving DecidableEq, Repr

/-- `DoubleRatchet.__init__`: fresh engine `i` with random `root_key` and empty
per-peer dictionaries. -/
def mkRatchet (i : Nat) (rootKey : KBytes) : DoubleRatchet :=
  ⟨i, rootKey, [], [], []⟩

/-- Everything `DoubleRatchet.encrypt_message` computes before the
`json.dumps` call on its last line: the ratchet-state update, the AES-GCM
encryption, the counter increment and the `message_data` structure.
`randKey` is the `os.urandom(32)` value drawn in the existing-chain branch,
`nonce` the `os.urandom(12)` nonce. Returns the built message structure and
the updated engine state. -/
def encrypt_message_pre (s : DoubleRatchet) (message : List Nat) (otherPub : Nat)
    (randKey nonce : KBytes) : EncryptedMessage × DoubleRatchet :=
  let step : DoubleRatchet × KBytes :=
    match alGet s.chain_keys otherPub with
    | none =>
      -- First message to this contact
      let ss := performDh s.me otherPub
      let rk := kdf_root_key s.root_key ss
      let ck := (kdf_chain_key rk ss).1
      let mk := (kdf_chain_key rk ss).2
      (⟨s.me, rk, alSet s.chain_keys otherPub ck,
        alSet s.message_numbers otherPub 0,
        alSet s.skip_message_keys otherPub []⟩, mk)
    | some _ =>
      -- Continue existing chain: message_key = os.urandom(32)
      (s, randKey)
  let s1 := step.1
  let mk := step.2
  let ct := aesgcmEncrypt mk nonce message
  let n := (alGet s1.message_numbers otherPub).getD 0 + 1
  let s2 : DoubleRatchet :=
    ⟨s1.me, s1.root_key, s1.chain_keys, alSet s1.message_numbers otherPub n,
     s1.skip_message_keys⟩
  (⟨s1.me, n, nonce, ct⟩, s2)

/-- A Python value stored in the `message_data` dict that `encrypt_message`
builds: the raw public-key bytes (no `.hex()` is applied to them in the
source), a hex string of a byte string, a hex string of a ciphertext, or an
int. -/
inductive PyVal where
  | rawBytes (publicKey : Nat)
  | hexStr (b : KBytes)
  | hexCipher (c : AEADCipher)
  | intVal (n : Nat)
  deriving DecidableEq, Repr

/-- Whether Python's `json` encoder accepts a dict value: it accepts str and
int but raises `TypeError: Object of type bytes is not JSON serializable`
on a `bytes` object. -/
def jsonSerializable : PyVal → Bool
  | PyVal.rawBytes _ => false
  | _ => true

/-- `json.dumps(d).encode()`: succeeds (the serialized record is modelled by
the dict itself) exactly when every value is serializable, and raises
TypeError (`none`) otherwise. -/
def json_dumps (d : List (String × PyVal)) : Option (List (String × PyVal)) :=
  if d.all (fun p => jsonSerializable p.2) then some d else none

/-- The `message_data` dict `encrypt_message` builds: `public_key` holds the
RAW public-key bytes while `nonce` and `ciphertext` are hex strings. -/
def message_data (msg : EncryptedMessage) : List (String × PyVal) :=
  [("public_key", PyVal.rawBytes msg.public_key),
   ("message_number", PyVal.intVal msg.message_number),
   ("nonce", PyVal.hexStr msg.nonce),
   ("ciphertext", PyVal.hexCipher msg.ciphertext)]

/-- `DoubleRatchet.encrypt_message` in full: the computation of
`encrypt_message_pre` followed by `return json.dumps(message_data).encode()`.
Because `message_data` maps `public_key` to raw bytes, the serialization
raises TypeError on every call (first component `none`); the function has no
try/except, so the exception propagates to the caller while the state
mutations made before the raise persist (second component). -/
def encrypt_message (s : DoubleRatchet) (message : List Nat) (otherPub : Nat)
    (randKey nonce : KBytes) :
    Option (List (String × PyVal)) × DoubleRatchet :=
  let pre := encrypt_message_pre s message otherPub randKey nonce
  (json_dumps (message_data pre.1), pre.2)

/-- `DoubleRatchet.decrypt_message` on an already-parsed message structure
(the code begins with `json.loads` and `bytes.fromhex` field parsing inside
its try/except; note it decodes `public_key` with `bytes.fromhex`, expecting
the hex encoding the encrypt side never produces).
`randKey` is the `os.urandom(32)` value drawn in the existing-chain branch.
The `ValueError` raised on failure is modelled as `none`; note the state
mutations of the first-contact branch happen before the AES-GCM call and are
kept even when decryption then fails, exactly as in the Python code. -/
def decrypt_message (s : DoubleRatchet) (msg : EncryptedMessage)
    (randKey : KBytes) : Option (List Nat) × DoubleRatchet :=
  let pk := msg.public_key
  match alGet s.chain_keys pk with
  | none =>
    -- First message from this contact
    let ss := performDh s.me pk
    let rk := kdf_root_key s.root_key ss
    let ck := (kdf_chain_key rk ss).1
    let mk := (kdf_chain_key rk ss).2
    let s1 : DoubleRatchet :=
      ⟨s.me, rk, alSet s.chain_keys pk ck,
       alSet s.message_numbers pk 0,
       alSet s.skip_message_keys pk []⟩
    (aesgcmDecrypt mk msg.nonce msg.ciphertext, s1)
  | some _ =>
    -- Continue existing chain: message_key = os.urandom(32)
    (aesgcmDecrypt randKey msg.nonce msg.ciphertext, s)

/-! ## Ephemeral store: images (chat_manager.py, ImageManager) -/

/-- The record stored in `ImageManager.images[image_id]`, with the bytes the
code writes to the temp file kept inline (they model the underlying storage).
Times are `Nat` seconds. -/
structure ImageInfo where
  sender_id : String
  thread_id : String
  created_at : Nat
  expires_at : Nat
  data : List Nat
  deriving DecidableEq, Repr

/-- `ImageManager.images` dictionary. -/
def ImageStore := List (String × ImageInfo)

/-- `ImageManager.store_image`: writes the bytes and records the info with
`expires_at = now + 30 minutes` (1800 s). The content-derived `image_id` is
taken as an argument. -/
def store_image (st : ImageStore) (imageId : String) (imageData : List Nat)
    (senderId threadId : String) (now : Nat) : ImageStore :=
  alSet st imageId
    ⟨senderId, threadId, now, now + 30 * 60, imageData⟩

/-- `ImageManager._delete_image`: removes the file and the dictionary entry. -/
def delete_image (st : ImageStore) (imageId : String) : ImageStore :=
  alErase st imageId

/-- `ImageManager.get_image`: `None` for an unknown id; for a known id, if
`now > expires_at` the image is deleted eagerly and `None` returned, otherwise
the stored bytes are read back. Returns the result and the updated store. -/
def get_image (st : ImageStore) (imageId : String) (now : Nat) :
    Option (List Nat) × ImageStore :=
  match alGet st imageId with
  | none => (none, st)
  | some info =>
    if now > info.expires_at then (none, delete_image st imageId)
    else (some info.data, st)

/-- One pass of `ImageManager._cleanup_loop`: delete every entry with
`now > expires_at`. -/
def image_cleanup_pass (st : ImageStore) (now : Nat) : ImageStore :=
  st.filter (fun p => ¬ now > p.2.expires_at)

/-! ## Ephemeral store: threads (chat_manager.py, ChatThread / ChatManager) -/

/-- `ChatMessage` (the fields `add_message` sets; `created_at` mirrors the
timestamp). -/
structure ChatMessage where
  content : String
  sender_id : String
  sender_username : String
  thread_id : String
  timestamp : Nat
  message_type : String
  deriving DecidableEq, Repr

/-- `ChatThread` state. -/
structure ChatThread where
  thread_id : String
  name : String
  is_private : Bool
  creator_id : Option String
  created_at : Nat
  expires_at : Option Nat
  messages : List ChatMessage
  participants : List String
  deriving DecidableEq, Repr

/-- `ChatThread.__init__`: `expires_at` is set to `created_at + expires_hours`
hours only for a positive TTL on a thread other than `main`. -/
def mkChatThread (threadId name : String) (isPrivate : Bool)
    (creatorId : Option String) (expiresHours : Nat) (now : Nat) : ChatThread :=
  { thread_id := threadId
    name := name
    is_private := isPrivate
    creator_id := creatorId
    created_at := now
    expires_at :=
      if threadId ≠ "main" ∧ expiresHours > 0
      then some (now + expiresHours * 3600) else none
    messages := []
    participants := [] }

/-- `ChatThread.is_expired`. -/
def ChatThread.is_expired (t : ChatThread) (now : Nat) : Bool :=
  match t.expires_at with
  | none => false
  | some e => now > e

/-- `ChatThread.add_message`. -/
def ChatThread.addMsg (t : ChatThread) (m : ChatMessage) : ChatThread :=
  { t with
    messages := t.messages ++ [m]
    participants :=
      if m.sender_id ∈ t.participants then t.participants
      else t.participants ++ [m.sender_id] }

/-- `ChatManager` state relevant to the thread registry: the `threads`
dictionary and `current_thread_id`. -/
structure ChatMgr where
  threads : List (String × ChatThread)
  current_thread_id : String
  deriving DecidableEq, Repr

/-- `ChatManager.__init__` followed by `_create_main_thread` (thread `main`
is built with the default `expires_hours = 12`, which its constructor ignores
because of the `main` guard). -/
def chatMgrInit (now : Nat) : ChatMgr :=
  ⟨[("main", mkChatThread "main" "Main Chat" false (some "system") 12 now)],
   "main"⟩

/-- `ChatManager.create_thread`: the hash-derived `thread_id` is taken as an
argument; the thread gets the default 12-hour TTL. -/
def create_thread (s : ChatMgr) (threadId name : String) (isPrivate : Bool)
    (creatorId : Option String) (now : Nat) : ChatMgr :=
  { s with
    threads := alSet s.threads threadId
      (mkChatThread threadId name isPrivate creatorId 12 now) }

/-- `ChatManager.add_message`: `None` target defaults to the current thread;
an unknown thread id yields `None` and leaves the state unchanged. -/
def add_message (s : ChatMgr) (content senderId senderUsername : String)
    (threadIdOpt : Option String) (now : Nat) : ChatMgr × Option ChatMessage :=
  let tid := threadIdOpt.getD s.current_thread_id
  match alGet s.threads tid with
  | none => (s, none)
  | some t =>
    let msg : ChatMessage := ⟨content, senderId, senderUsername, tid, now, "text"⟩
    ({ s with threads := alSet s.threads tid (t.addMsg msg) }, some msg)

/-- `ChatManager.add_image_message`: like `add_message` with an
`[IMAGE:<id>]` content. The code checks the thread exists, then calls
`store_image` (which touches only the image store, modelled separately) and
uses the returned id; the stored image id is therefore an argument here. -/
def add_image_message (s : ChatMgr) (imageId senderId senderUsername : String)
    (threadIdOpt : Option String) (now : Nat) : ChatMgr × Option ChatMessage :=
  let tid := threadIdOpt.getD s.current_thread_id
  match alGet s.threads tid with
  | none => (s, none)
  | some t =>
    let msg : ChatMessage :=
      ⟨"[IMAGE:" ++ imageId ++ "]", senderId, senderUsername, tid, now, "image"⟩
    ({ s with threads := alSet s.threads tid (t.addMsg msg) }, some msg)

/-- `ChatManager.set_current_thread`: a no-op for an unknown id. -/
def set_current_thread (s : ChatMgr) (threadId : String) : ChatMgr :=
  if (alGet s.threads threadId).isSome
  then { s with current_thread_id := threadId } else s

/-- `ChatManager._delete_thread`: guarded against `main` and unknown ids;
deleting the current thread resets the selection to `main`. -/
def delete_thread (s : ChatMgr) (threadId : String) : ChatMgr :=
  if (alGet s.threads threadId).isSome ∧ threadId ≠ "main" then
    { threads := alErase s.threads threadId
      current_thread_id :=
        if s.current_thread_id = threadId then "main" else s.current_thread_id }
  else s

/-- One pass of `ChatManager._cleanup_loop`: collect the ids of expired
threads, then delete each collected id other than `main`. -/
def thread_cleanup_pass (s : ChatMgr) (now : Nat) : ChatMgr :=
  let expired :=
    (s.threads.filter (fun p => p.2.is_expired now)).map Prod.fst
  expired.foldl
    (fun st tid => if tid ≠ "main" then delete_thread st tid else st) s

/-- The `ChatManager` registry invariant: `main` is present in the thread
registry and `current_thread_id` refers to a registered thread. -/
def ChatMgrInv (s : ChatMgr) : Prop :=
  (alGet s.threads "main").isSome ∧
  (alGet s.threads s.current_thread_id).isSome

/-- The `DoubleRatchet` bookkeeping invariant: every peer with a
`message_numbers` entry also has a `chain_keys` entry (the code always sets
the two dictionaries together). -/
def CountersSync (s : DoubleRatchet) : Prop :=
  ∀ q : Nat, (alGet s.message_numbers q).isSome → (alGet s.chain_keys q).isSome

/-! ## Envelope codec (network_utils.py, MessageProtocol) -/

/-- A JSON value, the output type of `json.loads`. -/
inductive JValue where
  | null
  | bool (b : Bool)
  | num (n : Int)
  | str (s : String)
  | arr (xs : List JValue)
  | obj (fields : List (String × JValue))

/-- The wire bytes handed to `MessageProtocol.parse_message`, abstracted by
what `data.decode('utf-8')` / `json.loads` does with them: either they fail to
decode as structured data (`undecodable`) or they decode to a JSON value. -/
inductive WireBytes where
  | undecodable
  | decoded (v : JValue)

/-- The envelope `parse_message` builds when decoding fails:
`{'type': 'ERROR', 'data': {'error': 'Invalid message format'}}`. -/
def errorEnvelope : JValue :=
  JValue.obj [("type", JValue.str "ERROR"),
              ("data", JValue.obj [("error", JValue.str "Invalid message format")])]

/-- `MessageProtocol.parse_message`: returns the decoded value unchanged on
success (whatever its shape), and the ERROR envelope when decoding raises. -/
def parse_message : WireBytes → JValue
  | WireBytes.undecodable => errorEnvelope
  | WireBytes.decoded v => v

/-- `d.get('type')` on a parsed envelope: the `type` field of an object,
if it is a string. -/
def envelopeType : JValue → Option String
  | JValue.obj fields =>
    match alGet fields "type" with
    | some (JValue.str t) => some t
    | _ => none
  | _ => none

/-! ## Connection registry and broadcast router (network_utils.py,
NetworkServer) -/

/-- The per-connection record `NetworkServer.clients[client_socket]`
(`user_id`, `username`, `public_key` are `None` until a JOIN binds them). -/
structure ClientInfo where
  user_id : Option String
  username : Option String
  public_key : Option String
  deriving DecidableEq, Repr

/-- Python truthiness of `client_info.get('user_id')`: `None` and the empty
string are falsy. -/
def optTruthy : Option String → Bool
  | none => false
  | some s => s ≠ ""

/-- The server-side thread record `NetworkServer.threads[thread_id]`. -/
structure SrvThreadInfo where
  name : Option String
  is_private : Bool
  created_at : Nat
  expires_at : Option Nat
  creator_id : Option String
  deriving DecidableEq, Repr

/-- Server state: the connection registry (sockets as `Nat`) and the thread
registry. -/
structure ServerState where
  clients : List (Nat × ClientInfo)
  threads : List (String × SrvThreadInfo)
  deriving DecidableEq, Repr

/-- The outbound payload the server builds before broadcasting (the `data`
dict of the response envelope, enriched with sender id and username). -/
inductive OutPayload where
  | message (content : Option String) (threadId : String)
      (senderId : String) (senderUsername : Option String) (timestamp : Nat)
  | image (imageData : Option String) (threadId : String)
      (senderId : String) (senderUsername : Option String) (timestamp : Nat)
  | threadCreated (threadId : String) (threadName : Option String)
      (isPrivate : Bool) (creatorUsername : Option String)
      (expiresAt : Option Nat)
  deriving DecidableEq, Repr

/-- An outbound envelope as built by `MessageProtocol.create_message` on the
server: type tag, payload, and the `user_id` field. -/
structure OutEnvelope where
  msgType : String
  payload : OutPayload
  user_id : String
  deriving DecidableEq, Repr

/-- `NetworkServer._handle_message`: drops the request unless the connection
is registered with a truthy `user_id`; otherwise builds the enriched MESSAGE
envelope and attempts delivery to every registered connection other than the
sender. Returns the new state and the list of attempted sends
`(recipient socket, envelope)`. -/
def handle_message (s : ServerState) (sock : Nat)
    (content : Option String) (threadId : Option String)
    (timestamp : Option Nat) (now : Nat) : ServerState × List (Nat × OutEnvelope) :=
  match alGet s.clients sock with
  | none => (s, [])
  | some ci =>
    if optTruthy ci.user_id then
      let uid := ci.user_id.getD ""
      let resp : OutEnvelope :=
        ⟨"MESSAGE",
         OutPayload.message content (threadId.getD "main") uid ci.username
           (timestamp.getD now), uid⟩
      (s, (s.clients.filter (fun p => p.1 ≠ sock)).map (fun p => (p.1, resp)))
    else (s, [])

/-- `NetworkServer._handle_image`: same guard and recipient set as
`_handle_message`, with an IMAGE payload. -/
def handle_image (s : ServerState) (sock : Nat)
    (imageData : Option String) (threadId : Option String)
    (timestamp : Option Nat) (now : Nat) : ServerState × List (Nat × OutEnvelope) :=
  match alGet s.clients sock with
  | none => (s, [])
  | some ci =>
    if optTruthy ci.user_id then
      let uid := ci.user_id.getD ""
      let resp : OutEnvelope :=
        ⟨"IMAGE",
         OutPayload.image imageData (threadId.getD "main") uid ci.username
           (timestamp.getD now), uid⟩
      (s, (s.clients.filter (fun p => p.1 ≠ sock)).map (fun p => (p.1, resp)))
    else (s, [])

/-- `NetworkServer._handle_create_thread`: same join guard; registers the new
thread (hash-derived id taken as an argument, 12-hour expiry unless the id is
`main`) and attempts delivery of the CREATE_THREAD notification to every
registered connection, the sender included (the loop has no exclusion). -/
def handle_create_thread (s : ServerState) (sock : Nat)
    (threadName : Option String) (isPrivate : Bool) (creatorId : Option String)
    (threadId : String) (now : Nat) : ServerState × List (Nat × OutEnvelope) :=
  match alGet s.clients sock with
  | none => (s, [])
  | some ci =>
    if optTruthy ci.user_id then
      let uid := ci.user_id.getD ""
      let expiresAt : Option Nat :=
        if threadId ≠ "main" then some (now + 12 * 60 * 60) else none
      let s1 : ServerState :=
        { s with
          threads := alSet s.threads threadId
            ⟨threadName, isPrivate, now, expiresAt, creatorId⟩ }
      let resp : OutEnvelope :=
        ⟨"CREATE_THREAD",
         OutPayload.threadCreated threadId threadName isPrivate ci.username
           expiresAt, uid⟩
      (s1, s.clients.map (fun p => (p.1, resp)))
    else (s, [])

/-! ## Theorems -/

section AListLemmas

variable {κ : Type} [DecidableEq κ] {α : Type}

theorem alGet_alSet_self (l : List (κ × α)) (k : κ) (v : α) :
    alGet (alSet l k v) k = some v := by
  induction l with
  | nil => simp [alSet, alGet]
  | cons p t ih =>
    obtain ⟨k', v'⟩ := p
    by_cases h : k' = k
    · subst h; simp [alSet, alGet]
    · simp [alSet, alGet, h, ih]

theorem alGet_alSet_other (l : List (κ × α)) (k q : κ) (v : α) (h : k ≠ q) :
    alGet (alSet l k v) q = alGet l q := by
  induction l with
  | nil => simp [alSet, alGet, h]
  | cons p t ih =>
    obtain ⟨k', v'⟩ := p
    by_cases h' : k' = k
    · subst h'; simp [alSet, alGet, h]
    · simp [alSet, alGet, h', ih]

theorem alGet_alErase_self (l : List (κ × α)) (k : κ) :
    alGet (alErase l k) k = none := by
  induction l with
  | nil => simp [alErase, alGet]
  | cons p t ih =>
    obtain ⟨k', v'⟩ := p
    by_cases h : k' = k
    · simpa [alErase, alGet, h] using ih
    · simpa [alErase, alGet, h] using ih

theorem alGet_alErase_other (l : List (κ × α)) (k q : κ) (h : q ≠ k) :
    alGet (alErase l k) q = alGet l q := by
  induction l with
  | nil => simp [alErase, alGet]
  | cons p t ih =>
    obtain ⟨k', v'⟩ := p
    by_cases h' : k' = k
    · subst h'; simpa [alErase, alGet, h, Ne.symm h] using ih
    · by_cases h2 : k' = q
      · subst h2; simp [alErase, alGet, List.filter_cons, h]
      · simpa [alErase, alGet, h', h2] using ih

theorem alGet_none_of_not_mem_keys (l : List (κ × α)) (k : κ)
    (h : k ∉ l.map Prod.fst) : alGet l k = none := by
  induction l with
  | nil => rfl
  | cons p t ih =>
    obtain ⟨k', v'⟩ := p
    simp only [List.map_cons, List.mem_cons] at h
    push_neg at h
    simp [alGet, Ne.symm h.1, ih h.2]

theorem alGet_filter (l : List (κ × α)) (p : κ × α → Bool) (k : κ)
    (hnd : (l.map Prod.fst).Nodup) :
    alGet (l.filter p) k =
      (alGet l k).bind (fun v => if p (k, v) then some v else none) := by
  induction l with
  | nil => rfl
  | cons q t ih =>
    obtain ⟨k', v'⟩ := q
    simp only [List.map_cons, List.nodup_cons] at hnd
    by_cases h : k' = k
    · subst h
      by_cases hp : p (k', v')
      · simp [List.filter_cons, hp, alGet]
      · have hnone : alGet (t.filter p) k' = none := by
          apply alGet_none_of_not_mem_keys
          intro hmem
          exact hnd.1 (by
            obtain ⟨q, hq, rfl⟩ := List.mem_map.mp hmem
            exact List.mem_map.mpr ⟨q, List.mem_of_mem_filter hq, rfl⟩)
        simp [List.filter_cons, hp, alGet, hnone]
    · by_cases hp : p (k', v')
      · simp [List.filter_cons, hp, alGet, h, ih hnd.2]
      · simp [List.filter_cons, hp, alGet, h, ih hnd.2]
end AListLemmas

/-- C1: the claim says that on every `encrypt_message` call with an existing
chain for the peer, the per-message key is derived deterministically from the
current sending chain key and the chain key is then advanced. The code instead
draws `os.urandom(32)` as the message key and leaves the chain key untouched
(all of this executes before the unrelated `json.dumps` raise, so it is
stated on `encrypt_message_pre`, the computation up to that raise): starting
from the state after a first contact with peer `1`, two further encryptions
from the identical state (same chain key) use their fresh random draws as
message keys — two different keys from the same chain key, so the derivation
is not deterministic, is not a function of the chain key, and the stored
chain key is never advanced. -/
theorem C1_message_key_random_chain_not_advanced :
    (alGet ((encrypt_message_pre (mkRatchet 0 (KBytes.rand 0)) [1, 2] 1
        (KBytes.rand 10) (KBytes.rand 11)).2).chain_keys 1).isSome = true ∧
    (encrypt_message_pre ((encrypt_message_pre (mkRatchet 0 (KBytes.rand 0)) [1, 2] 1
        (KBytes.rand 10) (KBytes.rand 11)).2) [3] 1
        (KBytes.rand 20) (KBytes.rand 21)).1.ciphertext.key = KBytes.rand 20 ∧
    (encrypt_message_pre ((encrypt_message_pre (mkRatchet 0 (KBytes.rand 0)) [1, 2] 1
        (KBytes.rand 10) (KBytes.rand 11)).2) [3] 1
        (KBytes.rand 30) (KBytes.rand 31)).1.ciphertext.key = KBytes.rand 30 ∧
    KBytes.rand 20 ≠ KBytes.rand 30 ∧
    (encrypt_message_pre ((encrypt_message_pre (mkRatchet 0 (KBytes.rand 0)) [1, 2] 1
        (KBytes.rand 10) (KBytes.rand 11)).2) [3] 1
        (KBytes.rand 20) (KBytes.rand 21)).2.chain_keys =
      ((encrypt_message_pre (mkRatchet 0 (KBytes.rand 0)) [1, 2] 1
        (KBytes.rand 10) (KBytes.rand 11)).2).chain_keys := by
  decide

/-- C2: the claim says `decrypt_message (encrypt_message P peer) = P` holds
deterministically for the first message between engines with identical
chain-key derivation state. It never holds of the program: `encrypt_message`
puts the raw public-key bytes into `message_data` and `json.dumps` raises
TypeError on every call, so no encrypted bytes are ever returned (first
conjunct). The slip is the missing `.hex()`: the decrypt side decodes
`public_key` with `bytes.fromhex`, and on the message structure built just
before the failing serialization the round trip does hold for the first
message between two fresh engines with equal root keys, by Diffie-Hellman
symmetry (second conjunct) — the claimed behavior is exactly what the code
computes up to the serialization bug. -/
theorem C2_encrypt_raises_before_roundtrip (iA iB : Nat) (root : KBytes)
    (m : List Nat) (randKey nonce rdec : KBytes) :
    (encrypt_message (mkRatchet iA root) m iB randKey nonce).1 = none ∧
    (decrypt_message (mkRatchet iB root)
      (encrypt_message_pre (mkRatchet iA root) m iB randKey nonce).1 rdec).1 =
      some m := by
  constructor
  · rfl
  · simp [encrypt_message_pre, decrypt_message, mkRatchet, alGet, performDh,
      kdf_chain_key, kdf_root_key, aesgcmEncrypt, aesgcmDecrypt,
      Nat.min_comm iB iA, Nat.max_comm iB iA]

/-- C3: the claim says an out-of-order message's key is cached in the
skipped-key store and is usable exactly once. In the code no skipped key is
ever cached or consulted and `message_number` is never read: with engines `A`
(index 0) and `B` (index 1) sharing a root key, `A` encrypts messages 1 and 2
to `B` (the message structures are stated via `encrypt_message_pre`, the
computation before the always-raising serialization); `B` receiving message 2
first fails to decrypt it even once (the
sender used a random key no receiver can re-derive), the skipped-key store for
the peer stays empty, a retry fails identically, and rewriting the message's
`message_number` field changes nothing about the outcome. -/
theorem C3_no_skipped_key_cache_decrypt_ignores_message_number :
    (decrypt_message (mkRatchet 1 (KBytes.rand 0))
      (encrypt_message_pre ((encrypt_message_pre (mkRatchet 0 (KBytes.rand 0)) [1] 1
          (KBytes.rand 10) (KBytes.rand 11)).2) [2] 1
        (KBytes.rand 20) (KBytes.rand 21)).1 (KBytes.rand 30)).1 = none ∧
    alGet ((decrypt_message (mkRatchet 1 (KBytes.rand 0))
      (encrypt_message_pre ((encrypt_message_pre (mkRatchet 0 (KBytes.rand 0)) [1] 1
          (KBytes.rand 10) (KBytes.rand 11)).2) [2] 1
        (KBytes.rand 20) (KBytes.rand 21)).1 (KBytes.rand 30)).2).skip_message_keys 0 =
      some [] ∧
    (decrypt_message ((decrypt_message (mkRatchet 1 (KBytes.rand 0))
      (encrypt_message_pre ((encrypt_message_pre (mkRatchet 0 (KBytes.rand 0)) [1] 1
          (KBytes.rand 10) (KBytes.rand 11)).2) [2] 1
        (KBytes.rand 20) (KBytes.rand 21)).1 (KBytes.rand 30)).2)
      (encrypt_message_pre ((encrypt_message_pre (mkRatchet 0 (KBytes.rand 0)) [1] 1
          (KBytes.rand 10) (KBytes.rand 11)).2) [2] 1
        (KBytes.rand 20) (KBytes.rand 21)).1 (KBytes.rand 40)).1 = none ∧
    (decrypt_message ((decrypt_message (mkRatchet 1 (KBytes.rand 0))
      (encrypt_message_pre ((encrypt_message_pre (mkRatchet 0 (KBytes.rand 0)) [1] 1
          (KBytes.rand 10) (KBytes.rand 11)).2) [2] 1
        (KBytes.rand 20) (KBytes.rand 21)).1 (KBytes.rand 30)).2)
      { (encrypt_message_pre ((encrypt_message_pre (mkRatchet 0 (KBytes.rand 0)) [1] 1
          (KBytes.rand 10) (KBytes.rand 11)).2) [2] 1
        (KBytes.rand 20) (KBytes.rand 21)).1 with message_number := 99 }
      (KBytes.rand 40)) =
    (decrypt_message ((decrypt_message (mkRatchet 1 (KBytes.rand 0))
      (encrypt_message_pre ((encrypt_message_pre (mkRatchet 0 (KBytes.rand 0)) [1] 1
          (KBytes.rand 10) (KBytes.rand 11)).2) [2] 1
        (KBytes.rand 20) (KBytes.rand 21)).1 (KBytes.rand 30)).2)
      (encrypt_message_pre ((encrypt_message_pre (mkRatchet 0 (KBytes.rand 0)) [1] 1
          (KBytes.rand 10) (KBytes.rand 11)).2) [2] 1
        (KBytes.rand 20) (KBytes.rand 21)).1 (KBytes.rand 40)) := by
  decide

/-- C4, counterexample: the claim says `get_image` returns "not found" AT and
after the instant `created_at + 30 minutes`. Storing an image at time 0 and
querying it exactly at `0 + 30 * 60` seconds returns the image data, not
"not found": the code's check is strict (`now > expires_at`). -/
theorem C4_found_at_expiry_instant :
    ¬ ((get_image (store_image [] "img" [7] "alice" "main" 0) "img"
        (0 + 30 * 60)).1 = none) := by
  decide

/-- C4, amended: `store_image` stamps `expires_at = created_at + 30` minutes;
`get_image` returns the stored bytes at or strictly before that instant and
"not found" strictly after it; once expired, the entry is released eagerly on
access, and the periodic cleanup pass likewise removes exactly the expired
entries (on a registry without duplicate ids). -/
theorem C4_image_expiry_boundary_and_release
    (st : ImageStore) (id : String) (d : List Nat) (sid tid : String)
    (now t : Nat) (info : ImageInfo) :
    (alGet (store_image st id d sid tid now) id =
      some ⟨sid, tid, now, now + 30 * 60, d⟩) ∧
    (alGet st id = some info → t ≤ info.expires_at →
      get_image st id t = (some info.data, st)) ∧
    (alGet st id = some info → info.expires_at < t →
      get_image st id t = (none, delete_image st id) ∧
      alGet (delete_image st id) id = none) ∧
    (alGet st id = none → get_image st id t = (none, st)) ∧
    ((st.map Prod.fst).Nodup → alGet st id = some info →
      alGet (image_cleanup_pass st t) id =
        if info.expires_at < t then none else some info) := by
  refine ⟨alGet_alSet_self st id _, ?_, ?_, ?_, ?_⟩
  · intro hget hle
    simp [get_image, hget, Nat.not_lt.mpr hle]
  · intro hget hlt
    refine ⟨?_, alGet_alErase_self st id⟩
    simp [get_image, hget, hlt]
  · intro hget
    simp [get_image, hget]
  · intro hnd hget
    unfold image_cleanup_pass
    rw [alGet_filter st _ id hnd, hget]
    by_cases hlt : info.expires_at < t
    · simp [hlt]
    · simp [hlt]

/-- C4, witness for the amended theorem at a concrete store and times. -/
theorem C4_image_expiry_boundary_and_release_witness :
    (alGet (store_image [] "img" [7] "alice" "main" 5) "img" =
      some ⟨"alice", "main", 5, 5 + 30 * 60, [7]⟩) ∧
    (get_image [("img", ⟨"alice", "main", 5, 1805, [7]⟩)] "img" 1805 =
      (some [7], [("img", ⟨"alice", "main", 5, 1805, [7]⟩)])) ∧
    (get_image [("img", ⟨"alice", "main", 5, 1805, [7]⟩)] "img" 1806 =
      (none, delete_image [("img", ⟨"alice", "main", 5, 1805, [7]⟩)] "img")) ∧
    alGet (image_cleanup_pass [("img", ⟨"alice", "main", 5, 1805, [7]⟩)] 1806)
      "img" = none := by
  have h := C4_image_expiry_boundary_and_release
    [("img", ⟨"alice", "main", 5, 1805, [7]⟩)] "img" [7] "alice" "main" 5 1805
    ⟨"alice", "main", 5, 1805, [7]⟩
  have h2 := C4_image_expiry_boundary_and_release
    [("img", ⟨"alice", "main", 5, 1805, [7]⟩)] "img" [7] "alice" "main" 5 1806
    ⟨"alice", "main", 5, 1805, [7]⟩
  refine ⟨h.1, (h.2.1 (by decide) (by decide)), ((h2.2.2.1 (by decide) (by decide)).1), ?_⟩
  have h3 := h2.2.2.2.2 (by decide) (by decide)
  simpa using h3

/-- C5, counterexample: the claim says a MESSAGE, IMAGE, or CREATE_THREAD
envelope is never re-delivered to the originating connection. For
CREATE_THREAD the broadcast loop has no origin exclusion: with three joined
connections 1, 2, 3, a CREATE_THREAD from connection 1 is delivered to
connection 1 as well. -/
theorem C5_create_thread_delivered_to_origin :
    1 ∈ ((handle_create_thread
      ⟨[(1, ⟨some "u1", some "A", none⟩), (2, ⟨some "u2", some "B", none⟩),
        (3, ⟨some "u3", some "C", none⟩)], []⟩
      1 (some "topic") false (some "u1") "t1" 0).2.map Prod.fst) := by
  decide

/-- C5, amended: a MESSAGE or IMAGE from a joined connection is delivered to
every other registered connection and never back to the originator (every
outbound envelope carries the sender's id), while a CREATE_THREAD is delivered
to every registered connection, the originator included; in particular, with
three joined connections 1, 2, 3, a MESSAGE from 1 goes exactly to 2 and 3. -/
theorem C5_broadcast_recipients (s : ServerState) (sock : Nat) (ci : ClientInfo)
    (content imageData : Option String) (tid : Option String) (ts : Option Nat)
    (tname : Option String) (priv : Bool) (cid : Option String)
    (newTid : String) (now : Nat)
    (hreg : alGet s.clients sock = some ci)
    (hjoin : optTruthy ci.user_id = true) :
    (sock ∉ ((handle_message s sock content tid ts now).2.map Prod.fst) ∧
      ∀ q, q ∈ s.clients.map Prod.fst → q ≠ sock →
        q ∈ ((handle_message s sock content tid ts now).2.map Prod.fst)) ∧
    (sock ∉ ((handle_image s sock imageData tid ts now).2.map Prod.fst) ∧
      ∀ q, q ∈ s.clients.map Prod.fst → q ≠ sock →
        q ∈ ((handle_image s sock imageData tid ts now).2.map Prod.fst)) ∧
    ((handle_create_thread s sock tname priv cid newTid now).2.map Prod.fst =
      s.clients.map Prod.fst) ∧
    (∀ p, p ∈ (handle_message s sock content tid ts now).2 →
      p.2.user_id = ci.user_id.getD "") ∧
    ((handle_message
      ⟨[(1, ⟨some "u1", some "A", none⟩), (2, ⟨some "u2", some "B", none⟩),
        (3, ⟨some "u3", some "C", none⟩)], []⟩
      1 (some "hi") none none 0).2.map Prod.fst = [2, 3]) := by
  refine ⟨⟨?_, ?_⟩, ⟨?_, ?_⟩, ?_, ?_, by decide⟩
  · simp [handle_message, hreg, hjoin, List.mem_filter]
  · intro q hq hne
    simp only [handle_message, hreg, hjoin, if_true, List.map_map]
    obtain ⟨p, hp, rfl⟩ := List.mem_map.mp hq
    exact List.mem_map.mpr ⟨p, List.mem_filter.mpr ⟨hp, by simpa using hne⟩, rfl⟩
  · simp [handle_image, hreg, hjoin, List.mem_filter]
  · intro q hq hne
    simp only [handle_image, hreg, hjoin, if_true, List.map_map]
    obtain ⟨p, hp, rfl⟩ := List.mem_map.mp hq
    exact List.mem_map.mpr ⟨p, List.mem_filter.mpr ⟨hp, by simpa using hne⟩, rfl⟩
  · simp [handle_create_thread, hreg, hjoin, List.map_map]
  · intro p hp
    simp only [handle_message, hreg, hjoin, if_true] at hp
    obtain ⟨q, _, rfl⟩ := List.mem_map.mp hp
    rfl

/-- C5, witness at a concrete three-connection registry. -/
theorem C5_broadcast_recipients_witness :
    (1 ∉ ((handle_message
      ⟨[(1, ⟨some "u1", some "A", none⟩), (2, ⟨some "u2", some "B", none⟩),
        (3, ⟨some "u3", some "C", none⟩)], []⟩
      1 (some "hi") none none 0).2.map Prod.fst)) ∧
    ((handle_create_thread
      ⟨[(1, ⟨some "u1", some "A", none⟩), (2, ⟨some "u2", some "B", none⟩),
        (3, ⟨some "u3", some "C", none⟩)], []⟩
      1 (some "topic") false (some "u1") "t1" 0).2.map Prod.fst = [1, 2, 3]) := by
  have h := C5_broadcast_recipients
    ⟨[(1, ⟨some "u1", some "A", none⟩), (2, ⟨some "u2", some "B", none⟩),
      (3, ⟨some "u3", some "C", none⟩)], []⟩
    1 ⟨some "u1", some "A", none⟩ (some "hi") none none none (some "topic")
    false (some "u1") "t1" 0 (by decide) (by decide)
  exact ⟨h.1.1, by simpa using h.2.2.1⟩

/-- C6, counterexample: the claim says `parse_message` yields an ERROR-typed
envelope when a required field is absent. Bytes decoding to the valid JSON
object with no fields at all are returned unchanged, and the resulting
envelope's type is absent, not `ERROR`. -/
theorem C6_missing_field_not_error :
    ¬ (envelopeType (parse_message (WireBytes.decoded (JValue.obj []))) =
        some "ERROR") := by
  simp [parse_message, envelopeType, alGet]

/-- C6, amended: `parse_message` is total (never raises); bytes that are not
valid structured data yield the ERROR envelope (whose type is `ERROR`), while
bytes decoding to any JSON value are returned unchanged — even when required
fields such as `type` are absent, so callers see whatever the sender encoded
rather than an ERROR envelope. -/
theorem C6_parse_message_behavior :
    (envelopeType (parse_message WireBytes.undecodable) = some "ERROR") ∧
    (parse_message WireBytes.undecodable = errorEnvelope) ∧
    (∀ v : JValue, parse_message (WireBytes.decoded v) = v) := by
  exact ⟨by simp [parse_message, envelopeType, errorEnvelope, alGet], rfl,
    fun v => rfl⟩

/-- C9: a MESSAGE, IMAGE, or CREATE_THREAD request from a connection that is
not registered, or whose registry entry has no truthy bound `user_id`, is
silently dropped: the handler returns with no sends and the server state
unchanged. -/
theorem C9_unjoined_requests_dropped (s : ServerState) (sock : Nat)
    (content imageData : Option String) (tid : Option String) (ts : Option Nat)
    (tname : Option String) (priv : Bool) (cid : Option String)
    (newTid : String) (now : Nat)
    (h : ∀ ci, alGet s.clients sock = some ci → optTruthy ci.user_id = false) :
    handle_message s sock content tid ts now = (s, []) ∧
    handle_image s sock imageData tid ts now = (s, []) ∧
    handle_create_thread s sock tname priv cid newTid now = (s, []) := by
  cases hreg : alGet s.clients sock with
  | none => simp [handle_message, handle_image, handle_create_thread, hreg]
  | some ci =>
    simp [handle_message, handle_image, handle_create_thread, hreg, h ci hreg]

/-- C9, witness: a registered but never-joined connection (all fields `None`)
gets its requests dropped. -/
theorem C9_unjoined_requests_dropped_witness :
    handle_message ⟨[(1, ⟨none, none, none⟩)], []⟩ 1 (some "hi") none none 0 =
      (⟨[(1, ⟨none, none, none⟩)], []⟩, []) ∧
    handle_create_thread ⟨[(1, ⟨none, none, none⟩)], []⟩ 1 (some "t") false
      none "t1" 0 = (⟨[(1, ⟨none, none, none⟩)], []⟩, []) := by
  have h := C9_unjoined_requests_dropped ⟨[(1, ⟨none, none, none⟩)], []⟩ 1
    (some "hi") none none none (some "t") false none "t1" 0
    (fun ci hci => by
      simp [alGet] at hci
      simp [← hci, optTruthy])
  exact ⟨h.1, h.2.2⟩

theorem isSome_alGet_alSet {κ : Type} [DecidableEq κ] {α : Type}
    (l : List (κ × α)) (k q : κ) (v : α)
    (h : (alGet l q).isSome) : (alGet (alSet l k v) q).isSome := by
  by_cases hk : k = q
  · subst hk; simp [alGet_alSet_self]
  · rwa [alGet_alSet_other l k q v hk]

theorem main_entry_delete_thread (s : ChatMgr) (tid : String) :
    alGet (delete_thread s tid).threads "main" = alGet s.threads "main" := by
  unfold delete_thread
  by_cases hg : (alGet s.threads tid).isSome ∧ tid ≠ "main"
  · rw [if_pos hg]
    exact alGet_alErase_other s.threads tid "main" (Ne.symm hg.2)
  · rw [if_neg hg]

theorem main_entry_cleanup_fold (l : List String) (s : ChatMgr) :
    alGet ((l.foldl
      (fun st tid => if tid ≠ "main" then delete_thread st tid else st)
      s).threads) "main" = alGet s.threads "main" := by
  induction l generalizing s with
  | nil => rfl
  | cons a t ih =>
    rw [List.foldl_cons, ih]
    by_cases ha : a ≠ "main"
    · rw [if_pos ha, main_entry_delete_thread]
    · rw [if_neg ha]

/-- C7: the `main` thread is never removed by the cleanup sweeper (its registry
entry is untouched by a cleanup pass, at every instant, in every state); a
thread created with `expires_hours = 0` never reports expiry; a thread with id
`main` never expires whatever its TTL argument; and a non-`main` thread
created with positive `expires_hours` reports `is_expired` exactly when
wall-clock time exceeds `created_at` plus the TTL. -/
theorem C7_main_immortal_ttl_boundary :
    (∀ (s : ChatMgr) (now : Nat),
      alGet (thread_cleanup_pass s now).threads "main" =
        alGet s.threads "main") ∧
    (∀ (tid name : String) (priv : Bool) (cid : Option String) (t0 now : Nat),
      (mkChatThread tid name priv cid 0 t0).is_expired now = false) ∧
    (∀ (name : String) (priv : Bool) (cid : Option String) (h t0 now : Nat),
      (mkChatThread "main" name priv cid h t0).is_expired now = false) ∧
    (∀ (tid name : String) (priv : Bool) (cid : Option String) (h t0 now : Nat),
      tid ≠ "main" → 0 < h →
      ((mkChatThread tid name priv cid h t0).is_expired now = true ↔
        t0 + h * 3600 < now)) := by
  refine ⟨?_, ?_, ?_, ?_⟩
  · intro s now
    exact main_entry_cleanup_fold _ s
  · intro tid name priv cid t0 now
    simp [mkChatThread, ChatThread.is_expired]
  · intro name priv cid h t0 now
    simp [mkChatThread, ChatThread.is_expired]
  · intro tid name priv cid h t0 now htid hh
    simp [mkChatThread, ChatThread.is_expired, htid, hh]

/-- C7, witness: a 1-hour thread created at time 0 is expired at 3601 s, and
a concrete cleanup pass keeps the `main` entry. -/
theorem C7_main_immortal_ttl_boundary_witness :
    (mkChatThread "t" "T" false none 1 0).is_expired 3601 = true ∧
    alGet (thread_cleanup_pass (chatMgrInit 0) 999999999).threads "main" =
      alGet (chatMgrInit 0).threads "main" := by
  exact ⟨(C7_main_immortal_ttl_boundary.2.2.2 "t" "T" false none 1 0 3601
      (by decide) (by decide)).mpr (by decide),
    C7_main_immortal_ttl_boundary.1 (chatMgrInit 0) 999999999⟩

theorem chatMgrInv_delete_thread (s : ChatMgr) (tid : String)
    (h : ChatMgrInv s) : ChatMgrInv (delete_thread s tid) := by
  unfold delete_thread
  by_cases hg : (alGet s.threads tid).isSome ∧ tid ≠ "main"
  · rw [if_pos hg]
    refine ⟨?_, ?_⟩
    · show (alGet (alErase s.threads tid) "main").isSome
      rw [alGet_alErase_other s.threads tid "main" (Ne.symm hg.2)]
      exact h.1
    · by_cases hcur : s.current_thread_id = tid
      · show (alGet (alErase s.threads tid)
          (if s.current_thread_id = tid then "main" else s.current_thread_id)).isSome
        rw [if_pos hcur, alGet_alErase_other s.threads tid "main" (Ne.symm hg.2)]
        exact h.1
      · show (alGet (alErase s.threads tid)
          (if s.current_thread_id = tid then "main" else s.current_thread_id)).isSome
        rw [if_neg hcur, alGet_alErase_other s.threads tid _ hcur]
        exact h.2
  · rw [if_neg hg]; exact h

theorem chatMgrInv_cleanup_fold (l : List String) (s : ChatMgr)
    (h : ChatMgrInv s) :
    ChatMgrInv (l.foldl
      (fun st tid => if tid ≠ "main" then delete_thread st tid else st) s) := by
  induction l generalizing s with
  | nil => exact h
  | cons a t ih =>
    rw [List.foldl_cons]
    apply ih
    by_cases ha : a ≠ "main"
    · rw [if_pos ha]; exact chatMgrInv_delete_thread s a h
    · rw [if_neg ha]; exact h

/-- C10: `ChatManager` maintains the invariant that `main` is registered and
`current_thread_id` refers to a registered thread: it holds after
construction and is preserved by `create_thread`, `add_message`,
`add_image_message`, `set_current_thread`, `_delete_thread` (which resets the
selection to `main` when the selected thread is deleted and is a no-op on
`main` and on unknown ids), and the cleanup sweep. -/
theorem C10_registry_invariant :
    (∀ now : Nat, ChatMgrInv (chatMgrInit now)) ∧
    (∀ (s : ChatMgr) (tid name : String) (priv : Bool) (cid : Option String)
      (now : Nat), ChatMgrInv s →
      ChatMgrInv (create_thread s tid name priv cid now)) ∧
    (∀ (s : ChatMgr) (c sid su : String) (tidOpt : Option String) (now : Nat),
      ChatMgrInv s → ChatMgrInv (add_message s c sid su tidOpt now).1) ∧
    (∀ (s : ChatMgr) (img sid su : String) (tidOpt : Option String) (now : Nat),
      ChatMgrInv s → ChatMgrInv (add_image_message s img sid su tidOpt now).1) ∧
    (∀ (s : ChatMgr) (tid : String), ChatMgrInv s →
      ChatMgrInv (set_current_thread s tid)) ∧
    (∀ (s : ChatMgr) (tid : String), ChatMgrInv s →
      ChatMgrInv (delete_thread s tid)) ∧
    (∀ (s : ChatMgr) (now : Nat), ChatMgrInv s →
      ChatMgrInv (thread_cleanup_pass s now)) := by
  refine ⟨?_, ?_, ?_, ?_, ?_, fun s tid => chatMgrInv_delete_thread s tid, ?_⟩
  · intro now
    constructor <;> simp [chatMgrInit, alGet]
  · intro s tid name priv cid now h
    exact ⟨isSome_alGet_alSet _ _ _ _ h.1, isSome_alGet_alSet _ _ _ _ h.2⟩
  · intro s c sid su tidOpt now h
    cases hget : alGet s.threads (tidOpt.getD s.current_thread_id) with
    | none =>
      have he : (add_message s c sid su tidOpt now).1 = s := by
        simp [add_message, hget]
      rw [he]; exact h
    | some t =>
      have he : (add_message s c sid su tidOpt now).1 =
          { s with
            threads := alSet s.threads (tidOpt.getD s.current_thread_id)
              (t.addMsg ⟨c, sid, su, tidOpt.getD s.current_thread_id, now,
                "text"⟩) } := by
        simp [add_message, hget]
      rw [he]
      exact ⟨isSome_alGet_alSet _ _ _ _ h.1, isSome_alGet_alSet _ _ _ _ h.2⟩
  · intro s img sid su tidOpt now h
    cases hget : alGet s.threads (tidOpt.getD s.current_thread_id) with
    | none =>
      have he : (add_image_message s img sid su tidOpt now).1 = s := by
        simp [add_image_message, hget]
      rw [he]; exact h
    | some t =>
      have he : (add_image_message s img sid su tidOpt now).1 =
          { s with
            threads := alSet s.threads (tidOpt.getD s.current_thread_id)
              (t.addMsg ⟨"[IMAGE:" ++ img ++ "]", sid, su,
                tidOpt.getD s.current_thread_id, now, "image"⟩) } := by
        simp [add_image_message, hget]
      rw [he]
      exact ⟨isSome_alGet_alSet _ _ _ _ h.1, isSome_alGet_alSet _ _ _ _ h.2⟩
  · intro s tid h
    unfold set_current_thread
    by_cases hg : (alGet s.threads tid).isSome
    · rw [if_pos hg]; exact ⟨h.1, hg⟩
    · rw [if_neg hg]; exact h
  · intro s now h
    exact chatMgrInv_cleanup_fold _ s h

/-- C10, witness: the invariant holds concretely after creating a thread,
selecting it, and deleting it (which falls back to `main`). -/
theorem C10_registry_invariant_witness :
    ChatMgrInv (delete_thread (set_current_thread
      (create_thread (chatMgrInit 0) "t1" "T" false none 0) "t1") "t1") := by
  exact C10_registry_invariant.2.2.2.2.2.1
    (set_current_thread (create_thread (chatMgrInit 0) "t1" "T" false none 0) "t1")
    "t1"
    (C10_registry_invariant.2.2.2.2.1
      (create_thread (chatMgrInit 0) "t1" "T" false none 0) "t1"
      (C10_registry_invariant.2.1 (chatMgrInit 0) "t1" "T" false none 0
        (C10_registry_invariant.1 0)))

theorem encrypt_message_never_serializes (s : DoubleRatchet) (m : List Nat)
    (pk : Nat) (r nc : KBytes) : (encrypt_message s m pk r nc).1 = none := rfl

theorem encrypt_message_state (s : DoubleRatchet) (m : List Nat) (pk : Nat)
    (r nc : KBytes) :
    (encrypt_message s m pk r nc).2 = (encrypt_message_pre s m pk r nc).2 := rfl

theorem enc_message_numbers_after (s : DoubleRatchet) (m : List Nat) (pk : Nat)
    (r nc : KBytes) :
    alGet (encrypt_message_pre s m pk r nc).2.message_numbers pk =
      some ((encrypt_message_pre s m pk r nc).1.message_number) := by
  cases hck : alGet s.chain_keys pk <;>
    simp [encrypt_message_pre, hck, alGet_alSet_self]

theorem enc_number_fresh (s : DoubleRatchet) (m : List Nat) (pk : Nat)
    (r nc : KBytes) (hck : alGet s.chain_keys pk = none) :
    (encrypt_message_pre s m pk r nc).1.message_number = 1 := by
  simp [encrypt_message_pre, hck, alGet_alSet_self]

theorem enc_number_existing (s : DoubleRatchet) (m : List Nat) (pk : Nat)
    (r nc : KBytes) (ck : KBytes) (hck : alGet s.chain_keys pk = some ck) :
    (encrypt_message_pre s m pk r nc).1.message_number =
      (alGet s.message_numbers pk).getD 0 + 1 := by
  simp [encrypt_message_pre, hck]

theorem enc_chain_keys_after (s : DoubleRatchet) (m : List Nat) (pk : Nat)
    (r nc : KBytes) :
    (alGet (encrypt_message_pre s m pk r nc).2.chain_keys pk).isSome := by
  cases hck : alGet s.chain_keys pk <;>
    simp [encrypt_message_pre, hck, alGet_alSet_self]

/-- C8: the stored per-peer counter does advance by exactly 1 on every
`encrypt_message` call: on first contact it is created at 0 and immediately
advanced to 1, with an existing chain it goes from `n` to `n + 1`, the
`message_number` placed into the message structure built just before the
serialization is the new counter value and rises by exactly 1 across
successive calls, and under the bookkeeping invariant `CountersSync` (which
holds initially and is preserved by both operations) no stored counter ever
decreases under `encrypt_message` or `decrypt_message`. But the claim's
"message_number carried in the returned encrypted structure" concerns a
return value that never exists: `json.dumps` raises TypeError on the raw
public-key bytes, so every call raises and returns nothing (first
conjunct). -/
theorem C8_message_number_increment :
    (∀ (s : DoubleRatchet) (m : List Nat) (pk : Nat) (r nc : KBytes),
      (encrypt_message s m pk r nc).1 = none) ∧
    (∀ (s : DoubleRatchet) (m : List Nat) (pk : Nat) (r nc ck : KBytes)
      (n : Nat), alGet s.chain_keys pk = some ck →
      alGet s.message_numbers pk = some n →
      (encrypt_message_pre s m pk r nc).1.message_number = n + 1 ∧
      alGet (encrypt_message s m pk r nc).2.message_numbers pk =
        some (n + 1)) ∧
    (∀ (s : DoubleRatchet) (m : List Nat) (pk : Nat) (r nc : KBytes),
      alGet s.chain_keys pk = none →
      (encrypt_message_pre s m pk r nc).1.message_number = 1 ∧
      alGet (encrypt_message s m pk r nc).2.message_numbers pk = some 1) ∧
    (∀ (s : DoubleRatchet) (m1 m2 : List Nat) (pk : Nat) (r1 nc1 r2 nc2 : KBytes),
      (encrypt_message_pre (encrypt_message s m1 pk r1 nc1).2 m2 pk
          r2 nc2).1.message_number =
        (encrypt_message_pre s m1 pk r1 nc1).1.message_number + 1) ∧
    (∀ (s : DoubleRatchet) (m : List Nat) (pk : Nat) (r nc : KBytes),
      CountersSync s → ∀ (q n : Nat), alGet s.message_numbers q = some n →
      ∃ x, alGet (encrypt_message s m pk r nc).2.message_numbers q = some x ∧
        n ≤ x) ∧
    (∀ (s : DoubleRatchet) (msg : EncryptedMessage) (r : KBytes),
      CountersSync s → ∀ (q n : Nat), alGet s.message_numbers q = some n →
      ∃ x, alGet (decrypt_message s msg r).2.message_numbers q = some x ∧
        n ≤ x) ∧
    (∀ (i : Nat) (root : KBytes), CountersSync (mkRatchet i root)) ∧
    (∀ (s : DoubleRatchet) (m : List Nat) (pk : Nat) (r nc : KBytes),
      CountersSync s → CountersSync (encrypt_message s m pk r nc).2) ∧
    (∀ (s : DoubleRatchet) (msg : EncryptedMessage) (r : KBytes),
      CountersSync s → CountersSync (decrypt_message s msg r).2) := by
  refine ⟨?_, ?_, ?_, ?_, ?_, ?_, ?_, ?_, ?_⟩
  · intro s m pk r nc
    rfl
  · intro s m pk r nc ck n hck hn
    have h1 := enc_number_existing s m pk r nc ck hck
    rw [hn] at h1
    refine ⟨h1, ?_⟩
    rw [encrypt_message_state, enc_message_numbers_after, h1]
    rfl
  · intro s m pk r nc hck
    refine ⟨enc_number_fresh s m pk r nc hck, ?_⟩
    rw [encrypt_message_state, enc_message_numbers_after,
      enc_number_fresh s m pk r nc hck]
  · intro s m1 m2 pk r1 nc1 r2 nc2
    rw [encrypt_message_state]
    obtain ⟨ck, hck⟩ :=
      Option.isSome_iff_exists.mp (enc_chain_keys_after s m1 pk r1 nc1)
    rw [enc_number_existing _ m2 pk r2 nc2 ck hck, enc_message_numbers_after]
    rfl
  · intro s m pk r nc hsync q n hn
    rw [encrypt_message_state]
    cases hck : alGet s.chain_keys pk with
    | none =>
      have hne : pk ≠ q := by
        intro he
        subst he
        have := hsync pk (by rw [hn]; rfl)
        rw [hck] at this
        exact absurd this (by simp)
      refine ⟨n, ?_, Nat.le_refl n⟩
      simp only [encrypt_message_pre, hck]
      rw [alGet_alSet_other _ pk q _ hne, alGet_alSet_other _ pk q _ hne]
      exact hn
    | some ck =>
      by_cases hq : pk = q
      · subst hq
        refine ⟨n + 1, ?_, Nat.le_succ n⟩
        rw [enc_message_numbers_after,
          enc_number_existing s m pk r nc ck hck, hn]
        rfl
      · refine ⟨n, ?_, Nat.le_refl n⟩
        simp only [encrypt_message_pre, hck]
        rw [alGet_alSet_other _ pk q _ hq]
        exact hn
  · intro s msg r hsync q n hn
    cases hck : alGet s.chain_keys msg.public_key with
    | none =>
      have hne : msg.public_key ≠ q := by
        intro he
        have := hsync q (by rw [hn]; rfl)
        rw [← he, hck] at this
        exact absurd this (by simp)
      refine ⟨n, ?_, Nat.le_refl n⟩
      simp only [decrypt_message, hck]
      rw [alGet_alSet_other _ _ q _ hne]
      exact hn
    | some ck =>
      refine ⟨n, ?_, Nat.le_refl n⟩
      simp only [decrypt_message, hck]
      exact hn
  · intro i root q hq
    simp [mkRatchet, alGet] at hq
  · intro s m pk r nc hsync
    rw [encrypt_message_state]
    intro q hq
    cases hck : alGet s.chain_keys pk with
    | none =>
      by_cases hpk : pk = q
      · subst hpk
        simp only [encrypt_message_pre, hck]
        rw [alGet_alSet_self]
        rfl
      · simp only [encrypt_message_pre, hck] at hq ⊢
        rw [alGet_alSet_other _ pk q _ hpk, alGet_alSet_other _ pk q _ hpk] at hq
        rw [alGet_alSet_other _ pk q _ hpk]
        exact hsync q hq
    | some ck =>
      by_cases hpk : pk = q
      · subst hpk
        simp only [encrypt_message_pre, hck]
        rfl
      · simp only [encrypt_message_pre, hck] at hq ⊢
        rw [alGet_alSet_other _ pk q _ hpk] at hq
        exact hsync q hq
  · intro s msg r hsync q hq
    cases hck : alGet s.chain_keys msg.public_key with
    | none =>
      by_cases hpk : msg.public_key = q
      · simp only [decrypt_message, hck]
        rw [← hpk, alGet_alSet_self]
        rfl
      · simp only [decrypt_message, hck] at hq ⊢
        rw [alGet_alSet_other _ _ q _ hpk] at hq
        rw [alGet_alSet_other _ _ q _ hpk]
        exact hsync q hq
    | some ck =>
      simp only [decrypt_message, hck] at hq ⊢
      exact hsync q hq

/-- C8, witness: the serialization fails on a concrete first message while
the pre-serialization structure carries number 1, and a second encryption
does not decrease the stored counter. -/
theorem C8_message_number_increment_witness :
    (encrypt_message (mkRatchet 0 (KBytes.rand 0)) [1] 1 (KBytes.rand 1)
      (KBytes.rand 2)).1 = none ∧
    (encrypt_message_pre (mkRatchet 0 (KBytes.rand 0)) [1] 1 (KBytes.rand 1)
      (KBytes.rand 2)).1.message_number = 1 ∧
    (∃ x, alGet (encrypt_message ((encrypt_message (mkRatchet 0 (KBytes.rand 0))
        [1] 1 (KBytes.rand 1) (KBytes.rand 2)).2) [2] 1 (KBytes.rand 3)
        (KBytes.rand 4)).2.message_numbers 1 = some x ∧ 1 ≤ x) := by
  refine ⟨C8_message_number_increment.1 (mkRatchet 0 (KBytes.rand 0)) [1] 1
      (KBytes.rand 1) (KBytes.rand 2),
    (C8_message_number_increment.2.2.1 (mkRatchet 0 (KBytes.rand 0)) [1] 1
      (KBytes.rand 1) (KBytes.rand 2) rfl).1, ?_⟩
  exact C8_message_number_increment.2.2.2.2.1
    ((encrypt_message (mkRatchet 0 (KBytes.rand 0)) [1] 1 (KBytes.rand 1)
      (KBytes.rand 2)).2)
    [2] 1 (KBytes.rand 3) (KBytes.rand 4)
    (C8_message_number_increment.2.2.2.2.2.2.2.1
      (mkRatchet 0 (KBytes.rand 0)) [1] 1 (KBytes.rand 1) (KBytes.rand 2)
      (C8_message_number_increment.2.2.2.2.2.2.1 0 (KBytes.rand 0)))
    1 1 (by decide)

end LuckyOnes
